import Mathlib

/-!
Verification of the core execution protocol of `poormanray` (`session.py`):
remote command execution over SSH, with an optional detachable
screen-multiplexed execution mode.

The embedding models strings as `List Char`, external effects (paramiko
connections, channels, the clock) as an explicit environment record, and the
observable side effects of one call as a trace of events.  The polling loop,
which the source runs without a bound, is embedded with explicit fuel: a
result of `none` means the loop was still running after `fuel` iterations.
-/

set_option autoImplicit false

namespace PoorManRay

/-- Strings of the embedding: Python `str` as a list of characters. -/
abbrev Str := List Char

/-- `SessionContent` from `session.py`: the captured stdout/stderr pair. -/
structure SessionContent where
  stdout : Str
  stderr : Str
  deriving DecidableEq

/-- Observable side effects of one execution attempt, in order of occurrence.
Connection ids distinguish the probe connection (0, opened by `run_single`)
from the interactive connection (1, opened inside `run_in_screen`'s `try`). -/
inductive Event where
  | connOpened (id : Nat)
  | connClosed (id : Nat)
  | cmdChannel (id : Nat) (command : Str)
  | shellOpened (id : Nat)
  | sent (id : Nat) (data : Str)
  | recvd (id : Nat) (data : Str)
  | echoed (data : Str)
  | warned
  deriving DecidableEq

/-- The exceptions the embedded code can raise. `notRunning` is the
`ValueError` of `Session.run`, `screenMissing` the `RuntimeError` of
`Session.run_in_screen`, `connectFailed` a paramiko failure while opening a
connection, `shellFailed` a failure while opening the interactive channel. -/
inductive RunError where
  | notRunning
  | screenMissing
  | connectFailed
  | shellFailed
  deriving DecidableEq

/-- Modelled from the spec: the lifecycle status enumeration of the external
instance-directory collaborator (`InstanceStatus` in `cli.py`, which is not
part of the source under verification).  The spec enumerates
pending, running, stopped, terminated. -/
inductive InstanceStatus where
  | pending
  | running
  | stopped
  | terminated
  deriving DecidableEq

/-- `needle.isPrefixOfStr hay`: the needle is a prefix of the haystack. -/
def matchHere : Str → Str → Bool
  | [], _ => true
  | _ :: _, [] => false
  | a :: as, b :: bs => a == b && matchHere as bs

/-- Python's substring test `needle in hay`. -/
def strHas (needle : Str) : Str → Bool
  | [] => matchHere needle []
  | c :: rest => matchHere needle (c :: rest) || strHas needle rest

/-- `session.py` line 152: `re.search(r"\r?\n" + completion_marker + r"\r?\n",
buffer)`.  The completion marker consists of ASCII letters, digits and
underscores only, so the pattern matches exactly the four literal strings
obtained by resolving each `\r?` to present or absent. -/
def scan (buffer token : Str) : Bool :=
  strHas (['\n'] ++ token ++ ['\n']) buffer ||
  strHas (['\n'] ++ token ++ ['\r', '\n']) buffer ||
  strHas (['\r', '\n'] ++ token ++ ['\n']) buffer ||
  strHas (['\r', '\n'] ++ token ++ ['\r', '\n']) buffer

/-- The two line-break conventions the scan pattern tolerates on each side. -/
def lineBreaks : List Str := [['\n'], ['\r', '\n']]

/-- `session.py` line 106: `hashlib.md5(command.encode()).hexdigest()[:12]`.
The md5 hex digest itself is an external library routine, passed in as the
function `md5hex`. -/
def command_hash (md5hex : Str → Str) (command : Str) : Str :=
  (md5hex command).take 12

/-- `session.py` line 116: `f"olmo-cookbook-{command_hash}-{time.time()}"`,
with `tstamp` the decimal rendering of `time.time()`. -/
def sessionNameOf (md5hex : Str → Str) (command : Str) (tstamp : Str) : Str :=
  "olmo-cookbook-".toList ++ command_hash md5hex command ++ ['-'] ++ tstamp

/-- `session.py` line 120: `f"CMD_COMPLETED_{command_hash[:20]}"`. -/
def completionMarker (md5hex : Str → Str) (command : Str) : Str :=
  "CMD_COMPLETED_".toList ++ (command_hash md5hex command).take 20

/-- The marker derivation of `run_in_screen` as one operation: the
time-dependent session name together with the content-derived completion
token (`session.py` lines 106, 116 and 120). -/
def deriveMarker (md5hex : Str → Str) (command : Str) (tstamp : Str) :
    Str × Str :=
  (sessionNameOf md5hex command tstamp, completionMarker md5hex command)

/-- `session.py` lines 123-126: the single line injected into the screen
session, before the separately sent newline. -/
def screenPayload (command marker : Str) (terminate : Bool) : Str :=
  if terminate then
    command ++ "; echo '".toList ++ marker ++ "'; screen -X quit".toList
  else
    command ++ "; echo '".toList ++ marker ++ "'".toList

/-- `session.py` line 117: the session-start line `screen -S <name>\n`. -/
def screenStartLine (md5hex : Str → Str) (command : Str) (tstamp : Str) :
    Str :=
  "screen -S ".toList ++ sessionNameOf md5hex command tstamp ++ ['\n']

/-- The probe command of `session.py` line 102. -/
def whichScreen : Str := "which screen".toList

/-- The tool name searched for in the probe's stdout (`"screen" not in ...`). -/
def screenTool : Str := "screen".toList

/-- `session.py` line 139: the detach keystroke `Ctrl+A` then `d`. -/
def detachKeys : Str := ['\x01', 'd']

/-- Environment of one `run_single` call: whether `client.connect` succeeds,
and the streams `exec_command` returns when it does. -/
structure SingleEnv where
  connectOk : Bool
  stdout : Str
  stderr : Str

/-- `Session.run_single` (`session.py` lines 88-92): connect, run the command
over a one-shot channel, read both streams.  The connection is given id
`nextId`; note that the source never closes it.  A failing `connect` raises
before any connection exists. -/
def run_single (nextId : Nat) (env : SingleEnv) (command : Str)
    (timeout : Option Nat) (get_pty : Bool) :
    Except RunError SessionContent × List Event :=
  if env.connectOk then
    (Except.ok ⟨env.stdout, env.stderr⟩,
      [Event.connOpened nextId, Event.cmdChannel nextId command])
  else
    (Except.error RunError.connectFailed, [])

/-- Environment of one `run_in_screen` call: the probe's `run_single`
environment, whether the interactive connect and `invoke_shell` succeed, the
channel's data availability (`recv_ready`) and 4096-byte chunks per polling
iteration, the elapsed time `time.time() - start_time` observed at iteration
`i`'s timeout check, and the rendering of `time.time()` used in the session
name. -/
structure ScreenEnv where
  probe : SingleEnv
  connectOk : Bool
  shellOk : Bool
  ready : Nat → Bool
  chunk : Nat → Str
  elapsed : Nat → Nat
  tstamp : Str

/-- The buffer accumulated by the polling loop after `i` iterations: the
concatenation of the chunks received so far. -/
def bufAt (env : ScreenEnv) : Nat → Str
  | 0 => []
  | i + 1 => bufAt env i ++ (if env.ready i then env.chunk i else [])

/-- `session.py` line 156: `if timeout and time.time() - start_time > timeout`.
Python truthiness makes both `None` and `0` disable the timeout check. -/
def tguard : Option Nat → Nat → Bool
  | none, _ => false
  | some t, e => decide (0 < t) && decide (t < e)

/-- The marker break condition of iteration `i`: data was ready and, after
appending the chunk, the completion scan succeeded. -/
def scanBreakAt (env : ScreenEnv) (marker : Str) (i : Nat) : Bool :=
  env.ready i && scan (bufAt env (i + 1)) marker

/-- The polling loop leaves iteration `i` when the marker break or the
timeout break fires there. -/
def breakAt (env : ScreenEnv) (marker : Str) (timeout : Option Nat)
    (i : Nat) : Bool :=
  scanBreakAt env marker i || tguard timeout (env.elapsed i)

/-- The polling loop of `session.py` lines 141-161, with explicit fuel.
Iteration `i` with accumulated `buffer`: if data is ready, receive a chunk,
append it, echo it, and stop if the completion scan now succeeds; otherwise
stop with a warning if the timeout guard fires; otherwise sleep and continue.
`none` means the loop was still running when the fuel ran out. -/
def pollLoop (env : ScreenEnv) (marker : Str) (timeout : Option Nat) :
    Nat → Nat → Str → Option (Str × List Event)
  | 0, _, _ => none
  | fuel + 1, i, buffer =>
    if env.ready i then
      let chunk := env.chunk i
      let buffer' := buffer ++ chunk
      if scan buffer' marker then
        some (buffer', [Event.recvd 1 chunk, Event.echoed chunk])
      else if tguard timeout (env.elapsed i) then
        some (buffer', [Event.recvd 1 chunk, Event.echoed chunk, Event.warned])
      else
        (pollLoop env marker timeout fuel (i + 1) buffer').map
          (fun r => (r.1, Event.recvd 1 chunk :: Event.echoed chunk :: r.2))
    else
      if tguard timeout (env.elapsed i) then
        some (buffer, [Event.warned])
      else
        pollLoop env marker timeout fuel (i + 1) buffer

/-- `Session.run_in_screen` (`session.py` lines 94-169).  Probe for the
`screen` tool via `run_single "which screen"` (connection 0); then, inside
the `try`, connect (connection 1), open the interactive shell, start a named
screen session, inject the command plus completion marker, and either detach
or poll for the marker.  The connection of the `try` block is closed on
success, timeout and exception; a `connect` failure leaves `client = None`,
so nothing is closed on that path. -/
def run_in_screen (md5hex : Str → Str) (env : ScreenEnv) (command : Str)
    (detach : Bool) (timeout : Option Nat) (terminate : Bool) (fuel : Nat) :
    Option (Except RunError SessionContent × List Event) :=
  match run_single 0 env.probe whichScreen none false with
  | (Except.error e, probeEvs) => some (Except.error e, probeEvs)
  | (Except.ok probeOut, probeEvs) =>
    if strHas screenTool probeOut.stdout = false then
      some (Except.error RunError.screenMissing, probeEvs)
    else if env.connectOk = false then
      some (Except.error RunError.connectFailed, probeEvs)
    else if env.shellOk = false then
      some (Except.error RunError.shellFailed,
        probeEvs ++ [Event.connOpened 1, Event.connClosed 1])
    else
      let marker := completionMarker md5hex command
      let preEvs := probeEvs ++
        [Event.connOpened 1, Event.shellOpened 1,
         Event.sent 1 (screenStartLine md5hex command env.tstamp),
         Event.sent 1 (screenPayload command marker terminate),
         Event.sent 1 ['\n']]
      if detach then
        some (Except.ok ⟨[], []⟩,
          preEvs ++ [Event.sent 1 detachKeys, Event.connClosed 1])
      else
        match pollLoop env marker timeout fuel 0 [] with
        | none => none
        | some (buffer, loopEvs) =>
          some (Except.ok ⟨buffer, buffer⟩,
            preEvs ++ loopEvs ++ [Event.connClosed 1])

/-- Environment of one `Session.run` call: the instance status read from the
external directory, plus the environments of the two execution paths. -/
structure RunEnv where
  state : InstanceStatus
  single : SingleEnv
  screen : ScreenEnv

/-- `session.py` line 185: `timeout or 600` — Python truthiness again makes
both `None` and `0` fall back to the 600-second default. -/
def defaultTimeout : Option Nat → Option Nat
  | none => some 600
  | some t => if t = 0 then some 600 else some t

/-- `Session.run` (`session.py` lines 171-187): raise unless the instance
status is exactly `running`, then dispatch to the screen path (when `detach`)
or the one-shot path. -/
def run (md5hex : Str → Str) (env : RunEnv) (command : Str) (get_pty : Bool)
    (detach : Bool) (terminate : Bool) (timeout : Option Nat) (fuel : Nat) :
    Option (Except RunError SessionContent × List Event) :=
  if env.state ≠ InstanceStatus.running then
    some (Except.error RunError.notRunning, [])
  else if detach then
    run_in_screen md5hex env.screen command detach (defaultTimeout timeout)
      terminate fuel
  else
    some (run_single 0 env.single command timeout get_pty)

/-- Events the polling loop itself can emit (no connection events). -/
def loopEvent : Event → Bool
  | Event.recvd _ _ => true
  | Event.echoed _ => true
  | Event.warned => true
  | _ => false

/-- The per-iteration receive/echo events of iteration `i`. -/
def iterEvents (env : ScreenEnv) (i : Nat) : List Event :=
  if env.ready i then
    [Event.recvd 1 (env.chunk i), Event.echoed (env.chunk i)]
  else
    []

theorem matchHere_iff (needle hay : Str) :
    matchHere needle hay = true ↔ ∃ t, hay = needle ++ t := by
  induction needle generalizing hay with
  | nil => simp [matchHere]
  | cons a as ih =>
    cases hay with
    | nil => simp [matchHere]
    | cons b bs =>
      simp only [matchHere, Bool.and_eq_true, beq_iff_eq, ih,
        List.cons_append, List.cons.injEq]
      constructor
      · rintro ⟨rfl, t, rfl⟩
        exact ⟨t, rfl, rfl⟩
      · rintro ⟨t, rfl, rfl⟩
        exact ⟨rfl, t, rfl⟩

theorem strHas_iff (needle hay : Str) :
    strHas needle hay = true ↔ ∃ p t, hay = p ++ needle ++ t := by
  induction hay with
  | nil =>
    simp only [strHas, matchHere_iff]
    constructor
    · rintro ⟨t, ht⟩
      exact ⟨[], t, by simpa using ht⟩
    · rintro ⟨p, t, ht⟩
      have h3 : p = [] ∧ needle = [] ∧ t = [] := by simpa using ht.symm
      exact ⟨[], by simp [h3.2.1]⟩
  | cons c rest ih =>
    simp only [strHas, Bool.or_eq_true, matchHere_iff, ih]
    constructor
    · rintro (⟨t, ht⟩ | ⟨p, t, ht⟩)
      · exact ⟨[], t, by simpa using ht⟩
      · exact ⟨c :: p, t, by simp [ht]⟩
    · rintro ⟨p, t, ht⟩
      cases p with
      | nil => exact Or.inl ⟨t, by simpa using ht⟩
      | cons d ds =>
        simp only [List.cons_append, List.cons.injEq] at ht
        exact Or.inr ⟨ds, t, ht.2⟩

theorem scan_nil (token : Str) : scan [] token = false := by
  simp [scan, strHas, matchHere]

/-- C1: the polling loop's completion check succeeds on a buffer and token
iff the buffer contains the token immediately preceded and immediately
followed by a line break, where each side independently uses either the LF
or the CRLF convention; in particular it fails whenever the token occurs
only without such line-break boundaries. -/
theorem scan_matches_iff_line_bounded (buffer token : Str) :
    scan buffer token = true ↔
      ∃ pre b1 b2 post, b1 ∈ lineBreaks ∧ b2 ∈ lineBreaks ∧
        buffer = pre ++ b1 ++ token ++ b2 ++ post := by
  simp only [scan, Bool.or_eq_true, strHas_iff, lineBreaks,
    List.mem_cons, List.mem_singleton, List.not_mem_nil, or_false]
  constructor
  · rintro (((⟨p, t, ht⟩ | ⟨p, t, ht⟩) | ⟨p, t, ht⟩) | ⟨p, t, ht⟩)
    · exact ⟨p, ['\n'], ['\n'], t, Or.inl rfl, Or.inl rfl,
        by simp [ht, List.append_assoc]⟩
    · exact ⟨p, ['\n'], ['\r', '\n'], t, Or.inl rfl, Or.inr rfl,
        by simp [ht, List.append_assoc]⟩
    · exact ⟨p, ['\r', '\n'], ['\n'], t, Or.inr rfl, Or.inl rfl,
        by simp [ht, List.append_assoc]⟩
    · exact ⟨p, ['\r', '\n'], ['\r', '\n'], t, Or.inr rfl, Or.inr rfl,
        by simp [ht, List.append_assoc]⟩
  · rintro ⟨pre, b1, b2, post, (rfl | rfl), (rfl | rfl), hb⟩
    · exact Or.inl (Or.inl (Or.inl ⟨pre, post,
        by simp [hb, List.append_assoc]⟩))
    · exact Or.inl (Or.inl (Or.inr ⟨pre, post,
        by simp [hb, List.append_assoc]⟩))
    · exact Or.inl (Or.inr ⟨pre, post, by simp [hb, List.append_assoc]⟩)
    · exact Or.inr ⟨pre, post, by simp [hb, List.append_assoc]⟩

/-- C4: the bytes injected into the multiplexer session are exactly the
command, then `; echo '<token>'`, then `; screen -X quit` iff the terminate
flag is set (nothing extra otherwise), then a single newline. -/
theorem injection_bytes_spec (command token : Str) (terminate : Bool) :
    screenPayload command token terminate ++ ['\n'] =
      command ++ "; echo '".toList ++ token ++ "'".toList ++
        (if terminate then "; screen -X quit".toList else []) ++ ['\n'] := by
  have hsplit : ("'; screen -X quit".toList : Str) =
      "'".toList ++ "; screen -X quit".toList := by decide
  cases terminate <;>
    simp [screenPayload, hsplit, List.append_assoc]

/-- C5: the completion token derived by `run_in_screen` depends on the
command text alone — two derivations at any two timestamps agree — while the
derived session name incorporates the timestamp, so derivations at distinct
timestamps produce distinct session names. -/
theorem deriveMarker_token_deterministic_session_unique
    (md5hex : Str → Str) (command : Str) (ts1 ts2 : Str) :
    (deriveMarker md5hex command ts1).2 = (deriveMarker md5hex command ts2).2 ∧
      (ts1 ≠ ts2 →
        (deriveMarker md5hex command ts1).1 ≠
          (deriveMarker md5hex command ts2).1) := by
  refine ⟨rfl, fun hne heq => hne ?_⟩
  simpa [deriveMarker, sessionNameOf, List.append_assoc] using heq

/-- A concrete stand-in for the md5 hex digest (the digest of the empty
input), used only to instantiate witnesses. -/
def md5W : Str → Str := fun _ => "d41d8cd98f00b204e9800998ecf8427e".toList

/-- A concrete command, used only to instantiate witnesses. -/
def lsCmd : Str := "ls".toList

/-- Two concrete distinct timestamp renderings, for witnesses. -/
def tsEarly : Str := "1.0".toList

/-- See `tsEarly`. -/
def tsLate : Str := "2.0".toList

theorem deriveMarker_token_deterministic_session_unique_witness :
    (deriveMarker md5W lsCmd tsEarly).2 =
        (deriveMarker md5W lsCmd tsLate).2 ∧
      (deriveMarker md5W lsCmd tsEarly).1 ≠
        (deriveMarker md5W lsCmd tsLate).1 :=
  ⟨(deriveMarker_token_deterministic_session_unique md5W lsCmd
      tsEarly tsLate).1,
    (deriveMarker_token_deterministic_session_unique md5W lsCmd
      tsEarly tsLate).2 (by decide)⟩

theorem bufAt_ready_false (env : ScreenEnv) (h : ∀ i, env.ready i = false) :
    ∀ i, bufAt env i = [] := by
  intro i
  induction i with
  | zero => rfl
  | succ j ih => simp [bufAt, h j, ih]

theorem breakAt_false_parts {env : ScreenEnv} {marker : Str}
    {timeout : Option Nat} {i : Nat}
    (h : breakAt env marker timeout i = false) :
    scanBreakAt env marker i = false ∧ tguard timeout (env.elapsed i) = false := by
  simpa [breakAt] using h

theorem pollLoop_step_noBreak (env : ScreenEnv) (marker : Str)
    (timeout : Option Nat) (i fuel : Nat)
    (h : breakAt env marker timeout i = false) :
    pollLoop env marker timeout (fuel + 1) i (bufAt env i) =
      (pollLoop env marker timeout fuel (i + 1) (bufAt env (i + 1))).map
        (fun r => (r.1, iterEvents env i ++ r.2)) := by
  rcases breakAt_false_parts h with ⟨hsb, htg⟩
  cases hr : env.ready i with
  | true =>
    have hscan : scan (bufAt env (i + 1)) marker = false := by
      simpa [scanBreakAt, hr] using hsb
    have hbuf : bufAt env (i + 1) = bufAt env i ++ env.chunk i := by
      simp [bufAt, hr]
    rw [hbuf] at hscan
    simp [pollLoop, hr, hscan, htg, iterEvents, hbuf]
  | false =>
    have hbuf : bufAt env (i + 1) = bufAt env i := by simp [bufAt, hr]
    rw [hbuf]
    simp only [pollLoop, hr, htg, if_neg, Bool.false_eq_true, if_false,
      iterEvents, List.nil_append]
    cases pollLoop env marker timeout fuel (i + 1) (bufAt env i) <;> simp

theorem pollLoop_step_break (env : ScreenEnv) (marker : Str)
    (timeout : Option Nat) (i fuel : Nat)
    (h : breakAt env marker timeout i = true) :
    pollLoop env marker timeout (fuel + 1) i (bufAt env i) =
      some (bufAt env (i + 1),
        iterEvents env i ++
          (if scanBreakAt env marker i then [] else [Event.warned])) := by
  cases hr : env.ready i with
  | true =>
    have hbuf : bufAt env (i + 1) = bufAt env i ++ env.chunk i := by
      simp [bufAt, hr]
    cases hscan : scan (bufAt env (i + 1)) marker with
    | true =>
      have hsb : scanBreakAt env marker i = true := by
        simp [scanBreakAt, hr, hscan]
      rw [hbuf] at hscan
      simp [pollLoop, hr, hscan, iterEvents, hbuf, hsb]
    | false =>
      have hsb : scanBreakAt env marker i = false := by
        simp [scanBreakAt, hr, hscan]
      have htg : tguard timeout (env.elapsed i) = true := by
        rcases (by simpa [breakAt, hsb] using h : _) with htg
        exact htg
      rw [hbuf] at hscan
      simp [pollLoop, hr, hscan, htg, iterEvents, hbuf, hsb]
  | false =>
    have hsb : scanBreakAt env marker i = false := by
      simp [scanBreakAt, hr]
    have htg : tguard timeout (env.elapsed i) = true := by
      rcases (by simpa [breakAt, hsb] using h : _) with htg
      exact htg
    have hbuf : bufAt env (i + 1) = bufAt env i := by simp [bufAt, hr]
    simp [pollLoop, hr, htg, iterEvents, hbuf, hsb]

theorem iterEvents_loopEvent (env : ScreenEnv) (i : Nat) :
    ∀ e ∈ iterEvents env i, loopEvent e = true := by
  intro e he
  cases hr : env.ready i <;> simp [iterEvents, hr] at he
  rcases he with rfl | rfl <;> rfl

theorem pollLoop_reaches_break (env : ScreenEnv) (marker : Str)
    (timeout : Option Nat) :
    ∀ n j fuel, n < fuel →
      breakAt env marker timeout (j + n) = true →
      (∀ k, j ≤ k → k < j + n → breakAt env marker timeout k = false) →
      ∃ evs, pollLoop env marker timeout fuel j (bufAt env j) =
          some (bufAt env (j + n + 1), evs) ∧
        (scanBreakAt env marker (j + n) = false → Event.warned ∈ evs) ∧
        (∀ e ∈ evs, loopEvent e = true) := by
  intro n
  induction n with
  | zero =>
    intro j fuel hf hb _
    cases fuel with
    | zero => omega
    | succ f =>
      refine ⟨_, pollLoop_step_break env marker timeout j f
        (by simpa using hb), ?_, ?_⟩
      · intro hsb
        have hsb' : scanBreakAt env marker j = false := by simpa using hsb
        simp [hsb']
      · intro e he
        rcases List.mem_append.mp he with h1 | h2
        · exact iterEvents_loopEvent env j e h1
        · rcases hsb : scanBreakAt env marker j <;> simp [hsb] at h2
          · rcases h2 with rfl
            rfl
  | succ n ih =>
    intro j fuel hf hb hno
    cases fuel with
    | zero => omega
    | succ f =>
      have hbj : breakAt env marker timeout j = false :=
        hno j le_rfl (by omega)
      have hb' : breakAt env marker timeout (j + 1 + n) = true := by
        have : j + 1 + n = j + (n + 1) := by omega
        rw [this]
        exact hb
      have hno' : ∀ k, j + 1 ≤ k → k < j + 1 + n →
          breakAt env marker timeout k = false := by
        intro k h1 h2
        exact hno k (by omega) (by omega)
      rcases ih (j + 1) f (by omega) hb' hno' with ⟨evs, hpoll, hw, hle⟩
      refine ⟨iterEvents env j ++ evs, ?_, ?_, ?_⟩
      · rw [pollLoop_step_noBreak env marker timeout j f hbj, hpoll]
        have harith : j + 1 + n + 1 = j + (n + 1) + 1 := by omega
        simp [harith]
      · intro hsb
        refine List.mem_append.mpr (Or.inr (hw ?_))
        have : j + 1 + n = j + (n + 1) := by omega
        rw [this]
        exact hsb
      · intro e he
        rcases List.mem_append.mp he with h1 | h2
        · exact iterEvents_loopEvent env j e h1
        · exact hle e h2

theorem pollLoop_noBreak_diverges (env : ScreenEnv) (marker : Str)
    (timeout : Option Nat) :
    ∀ fuel j, (∀ k, j ≤ k → breakAt env marker timeout k = false) →
      pollLoop env marker timeout fuel j (bufAt env j) = none := by
  intro fuel
  induction fuel with
  | zero => intro j _; rfl
  | succ f ih =>
    intro j h
    rw [pollLoop_step_noBreak env marker timeout j f (h j le_rfl)]
    rw [ih (j + 1) (fun k hk => h k (by omega))]
    rfl

theorem pollLoop_some_break (env : ScreenEnv) (marker : Str)
    (timeout : Option Nat) (fuel j : Nat) (r : Str × List Event)
    (h : pollLoop env marker timeout fuel j (bufAt env j) = some r) :
    ∃ i, j ≤ i ∧ breakAt env marker timeout i = true := by
  by_contra hno
  push_neg at hno
  have hall : ∀ k, j ≤ k → breakAt env marker timeout k = false := by
    intro k hk
    rcases hb : breakAt env marker timeout k with _ | _
    · rfl
    · exact absurd hb (hno k hk)
  rw [pollLoop_noBreak_diverges env marker timeout fuel j hall] at h
  exact Option.noConfusion h

theorem scanBreak_exists_of_scan_exists (env : ScreenEnv) (marker : Str)
    (h : ∃ i, scan (bufAt env i) marker = true) :
    ∃ m, scanBreakAt env marker m = true := by
  classical
  have h0 : Nat.find h ≠ 0 := by
    intro h0
    have := Nat.find_spec h
    rw [h0] at this
    rw [show bufAt env 0 = [] from rfl, scan_nil] at this
    exact Bool.noConfusion this
  rcases Nat.exists_eq_succ_of_ne_zero h0 with ⟨m, hm⟩
  have hspec : scan (bufAt env (m + 1)) marker = true := by
    have := Nat.find_spec h
    rwa [hm] at this
  have hmin : ¬ scan (bufAt env m) marker = true :=
    Nat.find_min h (by omega)
  have hr : env.ready m = true := by
    rcases hrm : env.ready m with _ | _
    · have : bufAt env (m + 1) = bufAt env m := by simp [bufAt, hrm]
      rw [this] at hspec
      exact absurd hspec hmin
    · rfl
  exact ⟨m, by simp [scanBreakAt, hr, hspec]⟩

theorem pollLoop_events_loopEvent (env : ScreenEnv) (marker : Str)
    (timeout : Option Nat) :
    ∀ fuel i buffer b evs,
      pollLoop env marker timeout fuel i buffer = some (b, evs) →
      ∀ e ∈ evs, loopEvent e = true := by
  intro fuel
  induction fuel with
  | zero =>
    intro i buffer b evs h
    exact Option.noConfusion h
  | succ f ih =>
    intro i buffer b evs h
    simp only [pollLoop] at h
    by_cases hr : env.ready i = true
    · rw [if_pos hr] at h
      by_cases hscan : scan (buffer ++ env.chunk i) marker = true
      · rw [if_pos hscan] at h
        rcases Option.some.injEq .. ▸ h with ⟨rfl, rfl⟩
        intro e he
        simp only [List.mem_cons, List.not_mem_nil, or_false] at he
        rcases he with rfl | rfl <;> rfl
      · rw [if_neg hscan] at h
        by_cases htg : tguard timeout (env.elapsed i) = true
        · rw [if_pos htg] at h
          rcases Option.some.injEq .. ▸ h with ⟨rfl, rfl⟩
          intro e he
          simp only [List.mem_cons, List.not_mem_nil, or_false] at he
          rcases he with rfl | rfl | rfl <;> rfl
        · rw [if_neg htg] at h
          rcases Option.map_eq_some'.mp h with ⟨⟨b', evs'⟩, hrec, heq⟩
          rcases Prod.mk.injEq .. ▸ heq with ⟨rfl, rfl⟩
          intro e he
          simp only [List.mem_cons] at he
          rcases he with rfl | rfl | hmem
          · rfl
          · rfl
          · exact ih (i + 1) (buffer ++ env.chunk i) b' evs' hrec e hmem
    · rw [if_neg hr] at h
      by_cases htg : tguard timeout (env.elapsed i) = true
      · rw [if_pos htg] at h
        rcases Option.some.injEq .. ▸ h with ⟨rfl, rfl⟩
        intro e he
        simp only [List.mem_singleton] at he
        rcases he with rfl
        rfl
      · rw [if_neg htg] at h
        exact ih (i + 1) buffer b evs h

/-- C8: the polling loop terminates iff the completion marker appears
line-bounded in the accumulated output at some point, or a (truthy) timeout
is configured and the observed elapsed time exceeds it at some iteration;
and when no timeout is configured and the marker never appears, the loop
runs forever (every amount of fuel is exhausted). -/
theorem pollLoop_terminates_iff (env : ScreenEnv) (marker : Str)
    (timeout : Option Nat) :
    ((∃ fuel r, pollLoop env marker timeout fuel 0 [] = some r) ↔
      ((∃ i, scan (bufAt env i) marker = true) ∨
        (∃ t, timeout = some t ∧ 0 < t ∧ ∃ i, t < env.elapsed i))) ∧
    (timeout = none → (∀ i, scan (bufAt env i) marker = false) →
      ∀ fuel, pollLoop env marker timeout fuel 0 [] = none) := by
  classical
  have hbuf0 : (([] : Str) = bufAt env 0) := rfl
  constructor
  · constructor
    · rintro ⟨fuel, r, h⟩
      rw [hbuf0] at h
      rcases pollLoop_some_break env marker timeout fuel 0 r h with ⟨i, _, hb⟩
      simp only [breakAt, Bool.or_eq_true] at hb
      rcases hb with hsb | htg
      · refine Or.inl ⟨i + 1, ?_⟩
        simp only [scanBreakAt, Bool.and_eq_true] at hsb
        exact hsb.2
      · rcases hto : timeout with _ | t
        · rw [hto] at htg
          exact Bool.noConfusion htg
        · rw [hto] at htg
          simp only [tguard, Bool.and_eq_true, decide_eq_true_eq] at htg
          exact Or.inr ⟨t, rfl, htg.1, i, htg.2⟩
    · intro h
      have hbr : ∃ i, breakAt env marker timeout i = true := by
        rcases h with hscan | ⟨t, rfl, ht, i, he⟩
        · rcases scanBreak_exists_of_scan_exists env marker hscan with ⟨m, hm⟩
          exact ⟨m, by simp [breakAt, hm]⟩
        · refine ⟨i, ?_⟩
          simp [breakAt, tguard, ht, he]
      have hfind := Nat.find_spec hbr
      have hno : ∀ k, 0 ≤ k → k < 0 + Nat.find hbr →
          breakAt env marker timeout k = false := by
        intro k _ hk
        rcases hb : breakAt env marker timeout k with _ | _
        · rfl
        · exact absurd hb (Nat.find_min hbr (by omega))
      rcases pollLoop_reaches_break env marker timeout (Nat.find hbr) 0
          (Nat.find hbr + 1) (by omega) (by simpa using hfind) hno with
        ⟨evs, hpoll, _, _⟩
      exact ⟨Nat.find hbr + 1, _, hbuf0 ▸ hpoll⟩
  · intro hto hnm fuel
    rw [hbuf0]
    refine pollLoop_noBreak_diverges env marker timeout fuel 0 ?_
    intro k _
    have hsb : scanBreakAt env marker k = false := by
      simp [scanBreakAt, hnm (k + 1)]
    simp [breakAt, hsb, hto, tguard]

/-- A screen environment whose channel never has data ready and whose clock
never advances, used only to instantiate witnesses. -/
def envQuiet : ScreenEnv where
  probe := ⟨true, "/usr/bin/screen".toList, []⟩
  connectOk := true
  shellOk := true
  ready := fun _ => false
  chunk := fun _ => []
  elapsed := fun _ => 0
  tstamp := "1700000000.0".toList

theorem pollLoop_terminates_iff_witness :
    pollLoop envQuiet (completionMarker md5W lsCmd) none 5 0 [] =
      none :=
  (pollLoop_terminates_iff envQuiet (completionMarker md5W lsCmd)
      none).2 rfl
    (fun i => by
      rw [bufAt_ready_false envQuiet (fun _ => rfl) i]
      exact scan_nil (completionMarker md5W lsCmd))
    5

/-- The trace of a successful probe: `run_single` opens connection 0 and
runs `which screen` over a one-shot channel; it never closes it. -/
def probeTrace : List Event :=
  [Event.connOpened 0, Event.cmdChannel 0 whichScreen]

/-- The trace of `run_in_screen` up to and including command injection. -/
def preTrace (md5hex : Str → Str) (env : ScreenEnv) (command : Str)
    (terminate : Bool) : List Event :=
  probeTrace ++
    [Event.connOpened 1, Event.shellOpened 1,
     Event.sent 1 (screenStartLine md5hex command env.tstamp),
     Event.sent 1 (screenPayload command (completionMarker md5hex command)
       terminate),
     Event.sent 1 ['\n']]

theorem run_in_screen_shape (md5hex : Str → Str) (env : ScreenEnv)
    (command : Str) (detach : Bool) (timeout : Option Nat) (terminate : Bool)
    (fuel : Nat) (res : Except RunError SessionContent) (tr : List Event)
    (h : run_in_screen md5hex env command detach timeout terminate fuel =
      some (res, tr)) :
    (res = Except.error RunError.connectFailed ∧ tr = []) ∨
    (res = Except.error RunError.screenMissing ∧ tr = probeTrace) ∨
    (res = Except.error RunError.connectFailed ∧ tr = probeTrace) ∨
    (res = Except.error RunError.shellFailed ∧
      tr = probeTrace ++ [Event.connOpened 1, Event.connClosed 1]) ∨
    (detach = true ∧ res = Except.ok ⟨[], []⟩ ∧
      tr = preTrace md5hex env command terminate ++
        [Event.sent 1 detachKeys, Event.connClosed 1]) ∨
    (detach = false ∧ ∃ buffer evs,
      pollLoop env (completionMarker md5hex command) timeout fuel 0 [] =
        some (buffer, evs) ∧
      res = Except.ok ⟨buffer, buffer⟩ ∧
      tr = preTrace md5hex env command terminate ++ evs ++
        [Event.connClosed 1]) := by
  cases hpc : env.probe.connectOk with
  | false =>
    simp [run_in_screen, run_single, hpc] at h
    exact Or.inl ⟨h.1.symm, h.2⟩
  | true =>
    cases hss : strHas screenTool env.probe.stdout with
    | false =>
      simp [run_in_screen, run_single, hpc, hss] at h
      exact Or.inr (Or.inl ⟨h.1.symm, by simp [probeTrace, h.2]⟩)
    | true =>
      cases hc : env.connectOk with
      | false =>
        simp [run_in_screen, run_single, hpc, hss, hc] at h
        exact Or.inr (Or.inr (Or.inl ⟨h.1.symm, by simp [probeTrace, h.2]⟩))
      | true =>
        cases hsh : env.shellOk with
        | false =>
          simp [run_in_screen, run_single, hpc, hss, hc, hsh] at h
          refine Or.inr (Or.inr (Or.inr (Or.inl ⟨h.1.symm, ?_⟩)))
          simp [probeTrace, h.2]
        | true =>
          cases hd : detach with
          | true =>
            simp [run_in_screen, run_single, hpc, hss, hc, hsh, hd] at h
            refine Or.inr (Or.inr (Or.inr (Or.inr (Or.inl
              ⟨rfl, h.1.symm, ?_⟩))))
            simp [preTrace, probeTrace, h.2]
          | false =>
            rcases hpoll : pollLoop env (completionMarker md5hex command)
                timeout fuel 0 [] with _ | ⟨buffer, evs⟩
            · simp [run_in_screen, run_single, hpc, hss, hc, hsh, hd,
                hpoll] at h
            · simp [run_in_screen, run_single, hpc, hss, hc, hsh, hd,
                hpoll] at h
              refine Or.inr (Or.inr (Or.inr (Or.inr (Or.inr
                ⟨rfl, buffer, evs, rfl, h.1.symm, ?_⟩))))
              simp [preTrace, probeTrace, h.2]

/-- C9: every normal return of the multiplexer path (marker match, timeout,
or detach) carries the same single merged buffer in both the stdout and the
stderr field of the captured output. -/
theorem screen_output_merged (md5hex : Str → Str) (env : ScreenEnv)
    (command : Str) (detach : Bool) (timeout : Option Nat) (terminate : Bool)
    (fuel : Nat) (sc : SessionContent) (tr : List Event)
    (h : run_in_screen md5hex env command detach timeout terminate fuel =
      some (Except.ok sc, tr)) :
    sc.stdout = sc.stderr := by
  rcases run_in_screen_shape md5hex env command detach timeout terminate fuel
      (Except.ok sc) tr h with
    ⟨h1, _⟩ | ⟨h1, _⟩ | ⟨h1, _⟩ | ⟨h1, _⟩ | ⟨_, h1, _⟩ |
    ⟨_, buffer, evs, _, h1, _⟩
  · exact Except.noConfusion h1
  · exact Except.noConfusion h1
  · exact Except.noConfusion h1
  · exact Except.noConfusion h1
  · injection h1 with h2
    rw [h2]
  · injection h1 with h2
    rw [h2]

theorem screen_output_merged_witness :
    (SessionContent.mk [] []).stdout = (SessionContent.mk [] []).stderr :=
  screen_output_merged md5W envQuiet lsCmd true none true 1
    (SessionContent.mk [] [])
    (preTrace md5W envQuiet lsCmd true ++
      [Event.sent 1 detachKeys, Event.connClosed 1])
    (by rfl)

/-- C2 is refuted on `run_single`: the one-shot path (also used as the probe
of the multiplexer path) opens a transport connection, returns normally, and
never closes it — the trace of a concrete successful call contains one
connection-opened event and no connection-closed event. -/
theorem run_single_leaves_connection_open :
    (run_single 0 ⟨true, "ok".toList, []⟩ lsCmd none false).1 =
        Except.ok ⟨"ok".toList, []⟩ ∧
      (run_single 0 ⟨true, "ok".toList, []⟩ lsCmd none false).2.count
          (Event.connOpened 0) = 1 ∧
      (run_single 0 ⟨true, "ok".toList, []⟩ lsCmd none false).2.count
          (Event.connClosed 0) = 0 :=
  ⟨rfl, by decide, by decide⟩

/-- C2 amended: the connection opened inside `run_in_screen`'s `try` block
(id 1) is opened at most once and closed exactly as many times as it is
opened, on every exit path — normal completion, timeout and exception —
while the connection opened by the probe's `run_single` (id 0) is never
closed. -/
theorem run_in_screen_closes_try_connection_once (md5hex : Str → Str)
    (env : ScreenEnv) (command : Str) (detach : Bool) (timeout : Option Nat)
    (terminate : Bool) (fuel : Nat) (res : Except RunError SessionContent)
    (tr : List Event)
    (h : run_in_screen md5hex env command detach timeout terminate fuel =
      some (res, tr)) :
    tr.count (Event.connOpened 1) ≤ 1 ∧
    tr.count (Event.connClosed 1) = tr.count (Event.connOpened 1) ∧
    tr.count (Event.connClosed 0) = 0 := by
  rcases run_in_screen_shape md5hex env command detach timeout terminate fuel
      res tr h with
    ⟨_, h2⟩ | ⟨_, h2⟩ | ⟨_, h2⟩ | ⟨_, h2⟩ | ⟨_, _, h2⟩ |
    ⟨_, buffer, evs, hp, _, h2⟩
  · subst h2
    decide
  · subst h2
    decide
  · subst h2
    decide
  · subst h2
    decide
  · subst h2
    simp [preTrace, probeTrace]
  · have hco : Event.connOpened 1 ∉ evs := by
      intro hmem
      have := pollLoop_events_loopEvent env (completionMarker md5hex command)
        timeout fuel 0 [] buffer evs hp _ hmem
      simp [loopEvent] at this
    have hcc : Event.connClosed 1 ∉ evs := by
      intro hmem
      have := pollLoop_events_loopEvent env (completionMarker md5hex command)
        timeout fuel 0 [] buffer evs hp _ hmem
      simp [loopEvent] at this
    have hcc0 : Event.connClosed 0 ∉ evs := by
      intro hmem
      have := pollLoop_events_loopEvent env (completionMarker md5hex command)
        timeout fuel 0 [] buffer evs hp _ hmem
      simp [loopEvent] at this
    subst h2
    simp [preTrace, probeTrace, List.count_append,
      List.count_eq_zero.mpr hco, List.count_eq_zero.mpr hcc,
      List.count_eq_zero.mpr hcc0]

theorem run_in_screen_closes_try_connection_once_witness :
    (preTrace md5W envQuiet lsCmd true ++
        [Event.sent 1 detachKeys, Event.connClosed 1]).count
        (Event.connOpened 1) ≤ 1 ∧
      (preTrace md5W envQuiet lsCmd true ++
          [Event.sent 1 detachKeys, Event.connClosed 1]).count
          (Event.connClosed 1) =
        (preTrace md5W envQuiet lsCmd true ++
            [Event.sent 1 detachKeys, Event.connClosed 1]).count
          (Event.connOpened 1) ∧
      (preTrace md5W envQuiet lsCmd true ++
          [Event.sent 1 detachKeys, Event.connClosed 1]).count
          (Event.connClosed 0) = 0 :=
  run_in_screen_closes_try_connection_once md5W envQuiet lsCmd true
    none true 1 (Except.ok ⟨[], []⟩)
    (preTrace md5W envQuiet lsCmd true ++
      [Event.sent 1 detachKeys, Event.connClosed 1])
    (by rfl)

theorem run_single_result_not_notRunning (nextId : Nat) (env : SingleEnv)
    (command : Str) (timeout : Option Nat) (get_pty : Bool) :
    (run_single nextId env command timeout get_pty).1 ≠
      Except.error RunError.notRunning := by
  cases hc : env.connectOk <;> simp [run_single, hc]

/-- C3: `run` raises the not-running error, with the trace still empty (no
transport connection attempted), whenever the instance status is anything
but `running`; and when the status is `running` it never produces that
error. -/
theorem run_not_running_gate (md5hex : Str → Str) (env : RunEnv)
    (command : Str) (get_pty detach terminate : Bool) (timeout : Option Nat)
    (fuel : Nat) :
    (env.state ≠ InstanceStatus.running →
      run md5hex env command get_pty detach terminate timeout fuel =
        some (Except.error RunError.notRunning, [])) ∧
    (env.state = InstanceStatus.running →
      ∀ res tr,
        run md5hex env command get_pty detach terminate timeout fuel =
          some (res, tr) →
        res ≠ Except.error RunError.notRunning) := by
  constructor
  · intro hne
    simp [run, hne]
  · intro hrun res tr h hres
    subst hres
    cases hd : detach with
    | true =>
      simp [run, hrun, hd] at h
      rcases run_in_screen_shape md5hex env.screen command true
          (defaultTimeout timeout) terminate fuel
          (Except.error RunError.notRunning) tr h with
        ⟨h1, _⟩ | ⟨h1, _⟩ | ⟨h1, _⟩ | ⟨h1, _⟩ | ⟨_, h1, _⟩ |
        ⟨hdf, _, _, _, _, _⟩
      · simp at h1
      · simp at h1
      · simp at h1
      · simp at h1
      · exact Except.noConfusion h1
      · exact Bool.noConfusion hdf
    | false =>
      simp [run, hrun, hd] at h
      refine run_single_result_not_notRunning 0 env.single command timeout
        get_pty ?_
      rw [h]

/-- A `run` environment whose instance is stopped, for the C3 witness. -/
def runEnvStopped : RunEnv :=
  ⟨InstanceStatus.stopped, ⟨true, [], []⟩, envQuiet⟩

theorem run_not_running_gate_witness :
    run md5W runEnvStopped lsCmd false false true none 1 =
      some (Except.error RunError.notRunning, []) :=
  (run_not_running_gate md5W runEnvStopped lsCmd false false true
    none 1).1 (by decide)

/-- C7: every multiplexer execution first runs the one-shot probe
`which screen` (its events open the trace), success being the presence of
the tool name in the probe's stdout; when the tool is absent the call fails
with the precondition error and the trace is exactly the probe's — no
interactive channel is ever opened and nothing is ever sent to a
multiplexer session. -/
theorem probe_gate_blocks_before_shell (md5hex : Str → Str)
    (env : ScreenEnv) (command : Str) (detach : Bool) (timeout : Option Nat)
    (terminate : Bool) (fuel : Nat)
    (hp : env.probe.connectOk = true)
    (habs : strHas screenTool env.probe.stdout = false) :
    run_in_screen md5hex env command detach timeout terminate fuel =
      some (Except.error RunError.screenMissing, probeTrace) ∧
    probeTrace.head? = some (Event.connOpened 0) ∧
    probeTrace.get? 1 = some (Event.cmdChannel 0 whichScreen) ∧
    (∀ id, Event.shellOpened id ∉ probeTrace) ∧
    (∀ id data, Event.sent id data ∉ probeTrace) := by
  refine ⟨?_, rfl, rfl, ?_, ?_⟩
  · simp [run_in_screen, run_single, hp, habs, probeTrace]
  · intro id
    simp [probeTrace]
  · intro id data
    simp [probeTrace]

/-- A screen environment on whose target the `screen` tool is missing (the
probe returns empty stdout), for the C7 witness. -/
def envNoScreen : ScreenEnv :=
  ⟨⟨true, [], []⟩, true, true, fun _ => false, fun _ => [], fun _ => 0,
    "1700000000.0".toList⟩

theorem probe_gate_blocks_before_shell_witness :
    run_in_screen md5W envNoScreen lsCmd false none true 1 =
      some (Except.error RunError.screenMissing, probeTrace) :=
  (probe_gate_blocks_before_shell md5W envNoScreen lsCmd false none
    true 1 rfl (by decide)).1

/-- C10: on the detach path the channel is never read between command
injection and the detach keystroke — the trace contains no receive event at
all — and the returned captured output has empty stdout and stderr,
whatever output the remote command may have produced. -/
theorem detach_returns_empty_no_reads (md5hex : Str → Str)
    (env : ScreenEnv) (command : Str) (timeout : Option Nat)
    (terminate : Bool) (fuel : Nat)
    (hp : env.probe.connectOk = true)
    (hs : strHas screenTool env.probe.stdout = true)
    (hc : env.connectOk = true)
    (hsh : env.shellOk = true) :
    run_in_screen md5hex env command true timeout terminate fuel =
      some (Except.ok ⟨[], []⟩,
        preTrace md5hex env command terminate ++
          [Event.sent 1 detachKeys, Event.connClosed 1]) ∧
    (∀ id data, Event.recvd id data ∉
      preTrace md5hex env command terminate ++
        [Event.sent 1 detachKeys, Event.connClosed 1]) := by
  constructor
  · simp [run_in_screen, run_single, hp, hs, hc, hsh, preTrace, probeTrace]
  · intro id data
    simp [preTrace, probeTrace]

theorem detach_returns_empty_no_reads_witness :
    run_in_screen md5W envQuiet lsCmd true none true 1 =
      some (Except.ok ⟨[], []⟩,
        preTrace md5W envQuiet lsCmd true ++
          [Event.sent 1 detachKeys, Event.connClosed 1]) :=
  (detach_returns_empty_no_reads md5W envQuiet lsCmd none true 1
    rfl (by decide) rfl rfl).1

/-- C6: when the configured (truthy) timeout elapses before the completion
marker is ever detected, a non-detach multiplexer execution returns
normally — no exception — with the partial buffer accumulated so far in
both output fields, a warning logged, and the `try`-block connection closed
exactly once. -/
theorem timeout_returns_partial_buffer (md5hex : Str → Str)
    (env : ScreenEnv) (command : Str) (terminate : Bool) (t : Nat)
    (hp : env.probe.connectOk = true)
    (hs : strHas screenTool env.probe.stdout = true)
    (hc : env.connectOk = true)
    (hsh : env.shellOk = true)
    (ht : 0 < t)
    (hnm : ∀ i, scan (bufAt env i) (completionMarker md5hex command) = false)
    (hto : ∃ i, t < env.elapsed i) :
    ∃ fuel buffer tr,
      run_in_screen md5hex env command false (some t) terminate fuel =
        some (Except.ok ⟨buffer, buffer⟩, tr) ∧
      Event.warned ∈ tr ∧
      tr.count (Event.connClosed 1) = 1 ∧
      ∃ k, t < env.elapsed k ∧ buffer = bufAt env (k + 1) := by
  classical
  have hsb : ∀ i,
      scanBreakAt env (completionMarker md5hex command) i = false := by
    intro i
    simp [scanBreakAt, hnm (i + 1)]
  have hbr : ∃ i,
      breakAt env (completionMarker md5hex command) (some t) i = true := by
    rcases hto with ⟨i, hi⟩
    exact ⟨i, by simp [breakAt, hsb i, tguard, ht, hi]⟩
  have hkb := Nat.find_spec hbr
  have hno : ∀ j, 0 ≤ j → j < 0 + Nat.find hbr →
      breakAt env (completionMarker md5hex command) (some t) j = false := by
    intro j _ hj
    rcases hb : breakAt env (completionMarker md5hex command) (some t) j
      with _ | _
    · rfl
    · exact absurd hb (Nat.find_min hbr (by omega))
  rcases pollLoop_reaches_break env (completionMarker md5hex command)
      (some t) (Nat.find hbr) 0 (Nat.find hbr + 1) (by omega)
      (by simpa using hkb) hno with ⟨evs, hpoll, hw, hle⟩
  have hpoll' : pollLoop env (completionMarker md5hex command) (some t)
      (Nat.find hbr + 1) 0 [] =
      some (bufAt env (Nat.find hbr + 1), evs) := by
    simpa using hpoll
  have hwarn : Event.warned ∈ evs := hw (by simpa using hsb (Nat.find hbr))
  have htg : tguard (some t) (env.elapsed (Nat.find hbr)) = true := by
    have h1 : (scanBreakAt env (completionMarker md5hex command)
          (Nat.find hbr) ||
        tguard (some t) (env.elapsed (Nat.find hbr))) = true := hkb
    rw [hsb (Nat.find hbr), Bool.false_or] at h1
    exact h1
  have hkel : t < env.elapsed (Nat.find hbr) := by
    simp only [tguard, Bool.and_eq_true, decide_eq_true_eq] at htg
    exact htg.2
  have hcl : Event.connClosed 1 ∉ evs := by
    intro hmem
    have := pollLoop_events_loopEvent env (completionMarker md5hex command)
      (some t) (Nat.find hbr + 1) 0 [] (bufAt env (Nat.find hbr + 1)) evs
      hpoll' _ hmem
    simp [loopEvent] at this
  refine ⟨Nat.find hbr + 1, bufAt env (Nat.find hbr + 1),
    preTrace md5hex env command terminate ++ evs ++ [Event.connClosed 1],
    ?_, ?_, ?_, ⟨Nat.find hbr, hkel, rfl⟩⟩
  · simp [run_in_screen, run_single, hp, hs, hc, hsh, hpoll', preTrace,
      probeTrace]
  · simp [hwarn]
  · simp [preTrace, probeTrace, List.count_append,
      List.count_eq_zero.mpr hcl]

/-- A screen environment whose channel never delivers data and whose clock
advances one unit per polling iteration, for the C6 witness. -/
def envSlow : ScreenEnv :=
  ⟨⟨true, "/usr/bin/screen".toList, []⟩, true, true, fun _ => false,
    fun _ => [], fun i => i, "1700000000.0".toList⟩

theorem timeout_returns_partial_buffer_witness :
    ∃ fuel buffer tr,
      run_in_screen md5W envSlow lsCmd false (some 1) true fuel =
        some (Except.ok ⟨buffer, buffer⟩, tr) ∧
      Event.warned ∈ tr ∧
      tr.count (Event.connClosed 1) = 1 ∧
      ∃ k, 1 < envSlow.elapsed k ∧ buffer = bufAt envSlow (k + 1) :=
  timeout_returns_partial_buffer md5W envSlow lsCmd true 1
    rfl (by decide) rfl rfl (by decide)
    (fun i => by
      rw [bufAt_ready_false envSlow (fun _ => rfl) i]
      exact scan_nil (completionMarker md5W lsCmd))
    ⟨2, by decide⟩

end PoorManRay
